import Mathlib

/-!
Verification of the market-sentiment core pipeline:
data-quality gate (`src/visualization/data_validator.py`),
feature engineering and ensemble training/prediction
(`src/models/advanced_predictor.py`), the pipeline control flow
(`src/pipeline/data_pipeline.py`), and the consistency reporter
(`src/scripts/data_quality.py`), shallowly embedded over lists of
rationals with `none` standing for a NaN cell.
-/

namespace MarketSentiment

/-! ## Data model and embedded operations -/

/-- A calendar date as the pandas datetime index exposes it: a linear day
number (for ordering, differences and freshness arithmetic) together with
the calendar attributes (`dayofweek`, `month`, `is_month_end`) the source
reads off the index. -/
structure Date where
  day : Int
  dow : Int
  mon : Int
  is_month_end : Bool
deriving DecidableEq

/-- A DataFrame as the core consumes it: a date index plus named numeric
columns; a cell holds `none` where the frame holds NaN. -/
structure Table where
  index : List Date
  cols : List (String × List (Option ℚ))
deriving DecidableEq

namespace Table

/-- `DataFrame.empty`: true when either axis has length zero. -/
def empty (t : Table) : Bool := t.index.isEmpty || t.cols.isEmpty

/-- `len(data)`: the number of rows. -/
def nrows (t : Table) : Nat := t.index.length

/-- Column access `data[name]` (first column of that name). -/
def getCol (t : Table) (name : String) : Option (List (Option ℚ)) :=
  t.cols.lookup name

/-- `pd.to_datetime(data.index).max()` as a day number (0 on an empty
index, which the validator never reaches). -/
def latestDay (t : Table) : Int := ((t.index.map Date.day).max?).getD 0

/-- `data.index.min()` as a day number. -/
def earliestDay (t : Table) : Int := ((t.index.map Date.day).min?).getD 0

end Table

/-- `data[col].isnull().mean() * 100`: percentage of NaN cells in one
column. -/
def missing_pct (l : List (Option ℚ)) : ℚ :=
  100 * ((l.countP (fun o => o.isNone) : ℚ) / (l.length : ℚ))

/-- The `stats` dict built by `DataValidator.check_data_quality`. -/
structure Stats where
  rows : Nat
  columns : Nat
  date_range : Int × Int
  missing_values : List (String × ℚ)
deriving DecidableEq

/-- The result dict of `DataValidator.check_data_quality`; `stats := none`
models the empty `{}` dict. -/
structure ValidationResult where
  is_valid : Bool
  issues : List String
  stats : Option Stats
deriving DecidableEq

namespace DataValidator

/-- `DataValidator.check_data_quality` (src/visualization/data_validator.py).
`now` is `datetime.now()` as a day number.  The source initialises
`is_valid := true` and each firing check both appends its issue and
assigns `is_valid := false`; here `is_valid` is the conjunction of the
three checks not firing, and `issues` concatenates the three issue lists
in source order.  The empty-table branch returns early with `stats = {}`
(modelled `none`). -/
def check_data_quality (now : Int) (data : Table) : ValidationResult :=
  if data.empty then
    { is_valid := false, issues := ["Data is empty"], stats := none }
  else
    let row_issues : List String :=
      if data.nrows < 7 then ["Insufficient data points (minimum 7 required)"] else []
    let missing : List (String × ℚ) := data.cols.map (fun c => (c.1, missing_pct c.2))
    let missing_issues : List String := missing.filterMap (fun p =>
      if 50 < p.2 then some ("High missing values in " ++ p.1) else none)
    let stale_issues : List String :=
      if data.latestDay < now - 7 then ["Data is more than 7 days old"] else []
    { is_valid := !(decide (data.nrows < 7))
        && missing.all (fun p => !(decide (50 < p.2)))
        && !(decide (data.latestDay < now - 7))
      issues := row_issues ++ missing_issues ++ stale_issues
      stats := some { rows := data.nrows
                      columns := data.cols.length
                      date_range := (data.earliestDay, data.latestDay)
                      missing_values := missing } }

end DataValidator

/-- The `stats` dict the validator computes for a non-empty table. -/
def statsOf (t : Table) : Stats :=
  { rows := t.nrows
    columns := t.cols.length
    date_range := (t.earliestDay, t.latestDay)
    missing_values := t.cols.map (fun c => (c.1, missing_pct c.2)) }

/-- A small concrete 8-row fresh table used to instantiate proved
validator theorems. -/
def sampleDate (n : Int) : Date := { day := n, dow := 0, mon := 1, is_month_end := false }

/-- An 8-row, fully populated, fresh (latest day = 100) one-column table. -/
def sampleTable : Table :=
  { index := [sampleDate 93, sampleDate 94, sampleDate 95, sampleDate 96,
              sampleDate 97, sampleDate 98, sampleDate 99, sampleDate 100]
    cols := [("market_change",
      [some 0, some 1, some 2, some 0, some 1, some 2, some 0, some 1])] }

/-- The trailing window `s[i-w+1 .. i]` that a pandas rolling aggregate
sees at position `i`. -/
def windowAt (w : Nat) (s : List α) (i : Nat) : List α :=
  (s.take (i + 1)).drop (i + 1 - w)

/-- Mean of a list of rationals (never applied to an empty list under a
positive min-periods policy). -/
def listMean (l : List ℚ) : ℚ := l.sum / (l.length : ℚ)

/-- Sample variance with `ddof = 1`, as pandas computes rolling `std²`:
`none` (NaN, from the 0/0) on fewer than two observations. -/
def sampleVar (l : List ℚ) : Option ℚ :=
  if 2 ≤ l.length then
    some ((l.map (fun x => (x - listMean l) ^ 2)).sum / ((l.length : ℚ) - 1))
  else none

/-- `Series.rolling(window=w, min_periods=mp)` aggregation: at each
position the non-NaN cells of the trailing window are aggregated when at
least `mp` are present, else the cell is NaN.  Omitting `min_periods` in
the source means `mp = w`. -/
def rollingApply (w mp : Nat) (f : List ℚ → Option ℚ) (s : List (Option ℚ)) :
    List (Option ℚ) :=
  (List.range s.length).map (fun i =>
    let vals := (windowAt w s i).filterMap id
    if mp ≤ vals.length then f vals else none)

/-- `Series.rolling(window=w, min_periods=mp).mean()`. -/
def rollingMean (w mp : Nat) (s : List (Option ℚ)) : List (Option ℚ) :=
  rollingApply w mp (fun v => some (listMean v)) s

/-- `Series.rolling(window=w, min_periods=mp).std()`, modelled by its
square (the sample variance): the source takes the square root, which
preserves missingness exactly; every claim checked here reads only the
missingness of std-derived columns. -/
def rollingStdSq (w mp : Nat) (s : List (Option ℚ)) : List (Option ℚ) :=
  rollingApply w mp sampleVar s

/-- `Series.diff()`: NaN at position 0, elsewhere the difference with the
previous cell, NaN-propagating. -/
def diffS (s : List (Option ℚ)) : List (Option ℚ) :=
  (List.range s.length).map (fun i =>
    match i with
    | 0 => none
    | j + 1 =>
      match s[j]?, s[j + 1]? with
      | some (some a), some (some b) => some (b - a)
      | _, _ => none)

/-- `Series.pct_change()`: relative change against the previous cell.
Missing operands and a zero denominator are collapsed to the NaN
sentinel (no claim reads this column's values). -/
def pctChangeS (s : List (Option ℚ)) : List (Option ℚ) :=
  (List.range s.length).map (fun i =>
    match i with
    | 0 => none
    | j + 1 =>
      match s[j]?, s[j + 1]? with
      | some (some a), some (some b) => if a = 0 then none else some ((b - a) / a)
      | _, _ => none)

/-- Elementwise NaN-propagating sum, for `ma + (std * 2)`. -/
def addS (a b : List (Option ℚ)) : List (Option ℚ) :=
  List.zipWith (fun x y =>
    match x, y with
    | some x, some y => some (x + y)
    | _, _ => none) a b

/-- Elementwise NaN-propagating difference, for `ma - (std * 2)`. -/
def subS (a b : List (Option ℚ)) : List (Option ℚ) :=
  List.zipWith (fun x y =>
    match x, y with
    | some x, some y => some (x - y)
    | _, _ => none) a b

/-- Elementwise NaN-propagating quotient, for the volatility column
`rolling(7).std() / rolling(7).mean()`; the IEEE infinity of a zero
denominator is collapsed to the NaN sentinel (no claim reads this
column's values). -/
def divS (a b : List (Option ℚ)) : List (Option ℚ) :=
  List.zipWith (fun x y =>
    match x, y with
    | some x, some y => if y = 0 then none else some (x / y)
    | _, _ => none) a b

/-- Scalar multiple of a series, for `std * 2`. -/
def scaleS (c : ℚ) (a : List (Option ℚ)) : List (Option ℚ) :=
  a.map (Option.map (fun x => x * c))

/-- `delta.where(delta > 0, 0)`: a NaN comparison is false, so NaN cells
(position 0 of the diff) become the literal 0. -/
def posPart (delta : List (Option ℚ)) : List (Option ℚ) :=
  delta.map (fun o =>
    match o with
    | some x => some (if 0 < x then x else 0)
    | none => some 0)

/-- `-delta.where(delta < 0, 0)`: the magnitudes of the losses, with NaN
cells becoming 0 exactly as for the gains. -/
def negPart (delta : List (Option ℚ)) : List (Option ℚ) :=
  delta.map (fun o =>
    match o with
    | some x => some (if x < 0 then -x else 0)
    | none => some 0)

/-- `100 - (100 / (1 + gain/loss))` under the IEEE semantics of the two
nonnegative rolling means: a positive loss gives the finite value, zero
loss with positive gain gives `rs = +inf` hence RSI `= 100`, and `0/0`
is NaN (`none`). -/
def rsiCombine (g l : Option ℚ) : Option ℚ :=
  match g, l with
  | some g, some l =>
    if 0 < l then some (100 - 100 / (1 + g / l))
    else if 0 < g then some 100
    else none
  | _, _ => none

/-- The RSI block of `create_advanced_features` for one window:
`rs = gain.rolling(w).mean() / loss.rolling(w).mean()` over the
positive/negative parts of `diff()`, then `100 - 100/(1+rs)`. -/
def market_rsi (w : Nat) (s : List (Option ℚ)) : List (Option ℚ) :=
  let delta := diffS s
  let gain := rollingMean w w (posPart delta)
  let loss := rollingMean w w (negPart delta)
  List.zipWith rsiCombine gain loss

/-- The feature block emitted for one sentiment column (loop body over
`['reddit_sentiment', 'news_sentiment']`): raw value, rolling mean and
std with `min_periods=1` for windows 3/7/14, rate of change, momentum,
and the strict-window volatility ratio. -/
def sentFeatures (col : String) (s : List (Option ℚ)) :
    List (String × List (Option ℚ)) :=
  [(col, s),
   (col ++ "_ma3", rollingMean 3 1 s), (col ++ "_std3", rollingStdSq 3 1 s),
   (col ++ "_ma7", rollingMean 7 1 s), (col ++ "_std7", rollingStdSq 7 1 s),
   (col ++ "_ma14", rollingMean 14 1 s), (col ++ "_std14", rollingStdSq 14 1 s),
   (col ++ "_roc", pctChangeS s),
   (col ++ "_momentum", diffS s),
   (col ++ "_volatility", divS (rollingStdSq 7 7 s) (rollingMean 7 7 s))]

/-- The technical-indicator block for `market_change`: raw value, then
per window 3/7/14 the strict-window (`min_periods` defaulted) moving
average, Bollinger bands `ma ± 2·std`, and the RSI. -/
def marketFeatures (s : List (Option ℚ)) : List (String × List (Option ℚ)) :=
  [("market_change", s),
   ("market_ma3", rollingMean 3 3 s),
   ("market_bb_upper3", addS (rollingMean 3 3 s) (scaleS 2 (rollingStdSq 3 3 s))),
   ("market_bb_lower3", subS (rollingMean 3 3 s) (scaleS 2 (rollingStdSq 3 3 s))),
   ("market_rsi3", market_rsi 3 s),
   ("market_ma7", rollingMean 7 7 s),
   ("market_bb_upper7", addS (rollingMean 7 7 s) (scaleS 2 (rollingStdSq 7 7 s))),
   ("market_bb_lower7", subS (rollingMean 7 7 s) (scaleS 2 (rollingStdSq 7 7 s))),
   ("market_rsi7", market_rsi 7 s),
   ("market_ma14", rollingMean 14 14 s),
   ("market_bb_upper14", addS (rollingMean 14 14 s) (scaleS 2 (rollingStdSq 14 14 s))),
   ("market_bb_lower14", subS (rollingMean 14 14 s) (scaleS 2 (rollingStdSq 14 14 s))),
   ("market_rsi14", market_rsi 14 s)]

/-- `AdvancedPredictor.create_advanced_features`
(src/models/advanced_predictor.py): sentiment blocks for the two
sentiment columns when present, the market block when `market_change` is
present, then the calendar features read off the date index. -/
def create_advanced_features (t : Table) : List (String × List (Option ℚ)) :=
  (match t.getCol "reddit_sentiment" with
   | some s => sentFeatures "reddit_sentiment" s
   | none => [])
  ++ (match t.getCol "news_sentiment" with
      | some s => sentFeatures "news_sentiment" s
      | none => [])
  ++ (match t.getCol "market_change" with
      | some s => marketFeatures s
      | none => [])
  ++ [("day_of_week", t.index.map (fun d => some (d.dow : ℚ))),
      ("month", t.index.map (fun d => some (d.mon : ℚ))),
      ("is_month_end", t.index.map (fun d => some (if d.is_month_end then (1 : ℚ) else 0)))]

/-- Column access on the engineered feature table. -/
def getFeat (t : Table) (name : String) : Option (List (Option ℚ)) :=
  (create_advanced_features t).lookup name

/-- A Combined Table with the three standard signal columns, all cells
populated. -/
def mkCombined (idx : List Date) (r nn m : List ℚ) : Table :=
  { index := idx
    cols := [("reddit_sentiment", r.map some),
             ("news_sentiment", nn.map some),
             ("market_change", m.map some)] }

/-- The two-row table of the C4 counterexample: both signal cells of
`market_change` are populated, yet its window-3 moving average is missing
at both rows. -/
def cx4Table : Table := mkCombined [sampleDate 0, sampleDate 1] [0, 1] [0, 1] [1, 2]

/-- The weighting step of `ensemble_predict`: each member's weight is its
raw R² score divided by the members' total — no clamping of negative
scores.  (In ℚ a zero total makes every quotient 0; the claims below
touch only nonzero totals, matching the finite-float path.) -/
def normalizeWeights (scores : List (String × ℚ)) : List (String × ℚ) :=
  let total := (scores.map Prod.snd).sum
  scores.map (fun p => (p.1, p.2 / total))

/-- `sum(pred * weights[name] ...)`: the weighted combination of aligned
per-member predictions, with the weights produced by
`normalizeWeights`. -/
def ensemble_combine (preds : List ℚ) (scores : List (String × ℚ)) : ℚ :=
  (List.zipWith (fun p wq => p * wq) preds
    ((normalizeWeights scores).map Prod.snd)).sum

/-- sklearn `TimeSeriesSplit(n_splits).split` over `n` samples (default
`test_size = n / (n_splits+1)`, no gap), as the training loop consumes
it: fold `k` trains on indices `[0, start_k)` and validates on
`[start_k, start_k + test_size)` with
`start_k = n - (n_splits - k) * test_size`. -/
def timeSeriesSplit (nSamples nSplits : Nat) : List (List Nat × List Nat) :=
  let testSize := nSamples / (nSplits + 1)
  (List.range nSplits).map (fun k =>
    let testStart := nSamples - (nSplits - k) * testSize
    (List.range testStart, (List.range testSize).map (fun j => testStart + j)))

/-- The per-member averaged fold metrics of `train_models`. -/
structure Metrics where
  mse : ℚ
  rmse : ℚ
  r2 : ℚ
  mape : ℚ
deriving DecidableEq

/-- Outcome of handling one ensemble member inside the training loop,
abstracting the sklearn fold fits (which may raise) and the
`joblib.dump` (which may raise): `ok` carries the averaged fold
metrics. -/
inductive MemberEvent where
  | ok (m : Metrics)
  | fitFail
  | dumpFail
deriving DecidableEq

/-- The member loop of `train_models` (lines 126-173): members are
processed in order; for a successful member the averaged metrics are
recorded in `model_scores` and its artifact dumped; any raise unwinds to
the outer `except`, which returns `None` — artifacts already dumped for
earlier members stay on disk (a dump that itself raises leaves no usable
artifact).  Returns (artifact names persisted, returned scores or
`None`). -/
def runMemberLoop :
    List (String × MemberEvent) → List String × Option (List (String × Metrics))
  | [] => ([], some [])
  | (n, MemberEvent.ok m) :: rest =>
    let r := runMemberLoop rest
    (n :: r.1, r.2.map (fun ss => (n, m) :: ss))
  | (_, MemberEvent.fitFail) :: _ => ([], none)
  | (_, MemberEvent.dumpFail) :: _ => ([], none)

/-- `features[target_col].shift(-forecast_days)`: the target at row `i`
is the column's cell `forecast_days` rows later; the last
`forecast_days` rows have no target. -/
def shiftNeg (k : Nat) (col : List (Option ℚ)) : List (Option ℚ) :=
  (List.range col.length).map (fun i =>
    if i + k < col.length then col[i + k]?.getD none else none)

/-- The ensemble members in the insertion order of `self.models` —
'gbm', 'rf', 'nn', 'lasso' — which the member loop iterates. -/
def memberNames : List String := ["gbm", "rf", "nn", "lasso"]

/-- Whether the fitted matrix `X[mask]` of `train_models` contains a NaN
cell: some feature column other than the target has a NaN at a row whose
shifted target is defined.  `train_models` never applies the imputer, so
these cells reach every member's `fit` unchanged. -/
def featureMatrixHasNaN (t : Table) : Bool :=
  let features := create_advanced_features t
  match features.lookup "market_change" with
  | none => false
  | some tcol =>
    let y := shiftNeg 7 tcol
    (features.filter (fun c => !(c.1 == "market_change"))).any (fun c =>
      (List.range c.2.length).any (fun i =>
        !(y.getD i none).isNone && (c.2.getD i none).isNone))

/-- The per-member outcomes the loop actually sees.  The oracle `events`
covers only what varies with environment (the tree members' tolerance of
NaN input differs across sklearn versions, and any dump may hit the
disk); `MLPRegressor` and `LassoCV` reject NaN input in every sklearn
version, so when the fitted matrix holds a NaN their fits raise
unconditionally. -/
def effectiveEvents (hasNaN : Bool) (events : String → MemberEvent) :
    List (String × MemberEvent) :=
  memberNames.map (fun n =>
    (n, if hasNaN && (n == "nn" || n == "lasso") then MemberEvent.fitFail
        else events n))

/-- `AdvancedPredictor.train_models` (src/models/advanced_predictor.py,
defaults `target_col='market_change'`, `forecast_days=7`) at the level
the claims read: the features are engineered; a missing target column
raises a KeyError into the outer `except` (→ persisted nothing, returned
`None`); the target is the column shifted back by 7 and rows with
undefined target are dropped; if no row survives,
`RobustScaler.fit_transform` raises on the empty matrix (→ `None`);
otherwise the member loop runs over `effectiveEvents`: environment
outcomes from the oracle `events`, with the NaN-rejecting members forced
to raise whenever the unimputed matrix holds a NaN. -/
def train_models (t : Table) (events : String → MemberEvent) :
    List String × Option (List (String × Metrics)) :=
  let features := create_advanced_features t
  match features.lookup "market_change" with
  | none => ([], none)
  | some tcol =>
    let y := shiftNeg 7 tcol
    if y.all (fun o => o.isNone) then ([], none)
    else runMemberLoop (effectiveEvents (featureMatrixHasNaN t) events)

/-- Lines 183-199 of `DataPipeline.run_pipeline`: the quality gate's
result is computed and printed, but training is invoked unconditionally —
the gate's verdict is never consulted before calling `train_models`. -/
def run_pipeline_training (now : Int) (combined : Table)
    (events : String → MemberEvent) :
    ValidationResult × (List String × Option (List (String × Metrics))) :=
  (DataValidator.check_data_quality now combined, train_models combined events)

/-- All-zero metrics used by concrete training scenarios. -/
def zMetrics : Metrics := ⟨0, 0, 0, 0⟩

/-- A 15-row stale combined table (days 0..14), fully populated
`market_change`. -/
def bigStale : Table :=
  { index := [sampleDate 0, sampleDate 1, sampleDate 2, sampleDate 3,
              sampleDate 4, sampleDate 5, sampleDate 6, sampleDate 7,
              sampleDate 8, sampleDate 9, sampleDate 10, sampleDate 11,
              sampleDate 12, sampleDate 13, sampleDate 14]
    cols := [("market_change",
      [some 1, some 2, some 3, some 4, some 5, some 6, some 7, some 8,
       some 9, some 10, some 11, some 12, some 13, some 14, some 15])] }

/-- The environment of a sklearn version whose tree members tolerate NaN
input: every fit and dump succeeds unless overridden. -/
def allOkEvents : String → MemberEvent := fun _ => MemberEvent.ok zMetrics

/-- An environment where `rf` raises while fitting (e.g. a version whose
forests reject the NaN matrix) after `gbm` has already succeeded. -/
def rfFailEvents : String → MemberEvent := fun n =>
  if n == "rf" then MemberEvent.fitFail else MemberEvent.ok zMetrics

/-- The 3-row table of the C3 scenario. -/
def t3Table : Table :=
  { index := [sampleDate 0, sampleDate 1, sampleDate 2]
    cols := [("market_change", [some 1, some 2, some 3])] }

/-- Python's `'sentiment' in col`: substring containment. -/
def strContainsSub (s pat : String) : Bool :=
  (List.range (s.toList.length + 1)).any
    (fun i => ((s.toList.drop i).take pat.toList.length) == pat.toList)

/-- `Series.min()` over already-non-null values (never used on an empty
list: the source guards with `len(non_null_data) > 0`). -/
def seriesMin (l : List ℚ) : ℚ := l.foldl min (l.headD 0)

/-- `Series.max()` over already-non-null values. -/
def seriesMax (l : List ℚ) : ℚ := l.foldl max (l.headD 0)

/-- One column's entry of the reporter's `value_ranges`. -/
structure ColumnRange where
  min : ℚ
  max : ℚ
  within_range : Bool
deriving DecidableEq

/-- The dict returned by `check_data_consistency`. -/
structure ConsistencyResult where
  missing_dates : Nat
  date_gaps : List Int
  value_ranges : List (String × ColumnRange)
deriving DecidableEq

/-- `DataQualityChecker.check_data_consistency` over the loaded combined
frame (file discovery, CSV parsing and their `None` returns are the
caller's plumbing; the frame's date column is the model's index, already
datetime, so the source's only in-place write — the datetime conversion
of the date column — leaves every value column untouched).  Returns the
consistency dict together with the frame as the function leaves it. -/
def check_data_consistency (data : Table) : ConsistencyResult × Table :=
  let days := data.index.map Date.day
  let lo := data.earliestDay
  let hi := data.latestDay
  let calendar := (List.range ((hi - lo + 1).toNat)).map (fun k => lo + (k : Int))
  let gaps := calendar.filter (fun d => !(days.contains d))
  let ranges := data.cols.filterMap (fun c =>
    let nonNull := c.2.filterMap id
    if nonNull.isEmpty then none
    else some (c.1,
      { min := seriesMin nonNull
        max := seriesMax nonNull
        within_range :=
          (if strContainsSub c.1 "sentiment" then decide (-1 ≤ seriesMin nonNull) else true)
          && (if strContainsSub c.1 "sentiment" then decide (seriesMax nonNull ≤ 1) else true) }))
  ({ missing_dates := gaps.length, date_gaps := gaps, value_ranges := ranges }, data)

/-! ## Lemmas and claim theorems -/

/-- Bridges the curried form `simp` leaves for "every column at most 50%
missing" with its direct statement. -/
lemma forall_missing_le_aux (cols : List (String × List (Option ℚ))) :
    (∀ (a : String) (b : ℚ) (x : String) (x1 : List (Option ℚ)),
        (x, x1) ∈ cols → x = a → missing_pct x1 = b → b ≤ 50) ↔
      ∀ (a : String) (b : List (Option ℚ)), (a, b) ∈ cols → missing_pct b ≤ 50 := by
  constructor
  · intro h a b hab
    exact h a (missing_pct b) a b hab rfl rfl
  · intro h a b x x1 hx hxa hxb
    exact hxb ▸ h x x1 hx

/-- C1: the quality gate accepts exactly the non-empty tables with at
least 7 rows, every column at most 50% missing, and latest index day at
most 7 days before `now`; it rejects all others. -/
theorem check_data_quality_is_valid_iff (now : Int) (data : Table) :
    (DataValidator.check_data_quality now data).is_valid = true ↔
      (data.empty = false ∧ 7 ≤ data.nrows ∧
        (∀ c ∈ data.cols, missing_pct c.2 ≤ 50) ∧ now - 7 ≤ data.latestDay) := by
  unfold DataValidator.check_data_quality
  cases he : data.empty with
  | true => simp [he]
  | false =>
    simp [he, List.all_eq_true, List.forall_mem_map, Bool.not_eq_true',
      decide_eq_false_iff_not, not_lt, and_assoc]
    intro _ _
    exact forall_missing_le_aux data.cols

/-- C1 witness: the gate accepts the concrete fresh 8-row table at
`now = 100`. -/
theorem check_data_quality_is_valid_iff_witness :
    (DataValidator.check_data_quality 100 sampleTable).is_valid = true :=
  (check_data_quality_is_valid_iff 100 sampleTable).mpr
    ⟨by decide, by decide, by simp [sampleTable, missing_pct], by decide⟩

/-- C2 counterexample: on the empty table the validator's early return
carries the empty `stats` dict, not a populated one. -/
theorem check_data_quality_empty_stats_none :
    (DataValidator.check_data_quality 0 { index := [], cols := [] }).stats = none := by
  rfl

/-- C2 (amended): for every non-empty table the validator returns the
fully populated stats (row count, column count, date range, per-column
missing percentage) regardless of validity; only the empty-table early
return (and the internal exception handler) leaves `stats` empty. -/
theorem check_data_quality_stats_populated (now : Int) (data : Table)
    (h : data.empty = false) :
    (DataValidator.check_data_quality now data).stats = some (statsOf data) := by
  unfold DataValidator.check_data_quality statsOf
  simp [h]

/-- C2 witness: the populated stats of the concrete 8-row table. -/
theorem check_data_quality_stats_populated_witness :
    sampleTable.empty = false ∧
      (DataValidator.check_data_quality 0 sampleTable).stats = some (statsOf sampleTable) :=
  ⟨by decide, check_data_quality_stats_populated 0 sampleTable (by decide)⟩

/-- C10: the validator's result is internally consistent: `is_valid` is
true exactly when the `issues` list is empty; every detected problem both
appends an issue and forces `is_valid = false`. -/
theorem check_data_quality_is_valid_iff_issues_empty (now : Int) (data : Table) :
    (DataValidator.check_data_quality now data).is_valid = true ↔
      (DataValidator.check_data_quality now data).issues = [] := by
  unfold DataValidator.check_data_quality
  cases he : data.empty with
  | true => simp [he]
  | false =>
    by_cases h1 : data.nrows < 7 <;> by_cases h3 : data.latestDay < now - 7 <;>
      simp [he, h1, h3, List.all_eq_true, List.forall_mem_map,
        Bool.not_eq_true', decide_eq_false_iff_not, not_lt,
        List.append_eq_nil, List.filterMap_eq_nil_iff, ite_eq_right_iff,
        reduceCtorEq]
    exact forall_missing_le_aux data.cols

lemma windowAt_length {α : Type} (w : Nat) (s : List α) (i : Nat) (hi : i < s.length) :
    (windowAt w s i).length = min (i + 1) w := by
  simp only [windowAt, List.length_drop, List.length_take]
  omega

lemma windowAt_map {α β : Type} (f : α → β) (w : Nat) (s : List α) (i : Nat) :
    windowAt w (s.map f) i = (windowAt w s i).map f := by
  simp [windowAt, List.map_take, List.map_drop]

lemma windowAt_subset {α : Type} (w : Nat) (s : List α) (i : Nat) :
    windowAt w s i ⊆ s :=
  fun _ hx => (s.take_subset (i + 1)) (((s.take (i + 1)).drop_subset (i + 1 - w)) hx)

lemma windowAt_getElem? {α : Type} (w : Nat) (s : List α) (i k : Nat)
    (hk : k < min (i + 1) w) :
    (windowAt w s i)[k]? = s[(i + 1 - w) + k]? := by
  unfold windowAt
  rw [List.getElem?_drop, List.getElem?_take]
  rw [if_pos (by omega)]

lemma mem_windowAt {α : Type} (w : Nat) (s : List α) (i j : Nat) (x : α)
    (h1 : i + 1 - w ≤ j) (h2 : j ≤ i) (hj : s[j]? = some x) :
    x ∈ windowAt w s i := by
  have hjl : j < s.length := by
    by_contra hc
    rw [List.getElem?_eq_none (by omega)] at hj
    exact Option.noConfusion hj
  have hk : (windowAt w s i)[j - (i + 1 - w)]? = some x := by
    rw [windowAt_getElem? w s i _ (by omega)]
    rw [show (i + 1 - w) + (j - (i + 1 - w)) = j by omega]
    exact hj
  exact List.mem_iff_getElem?.mpr ⟨_, hk⟩

lemma mem_windowAt_iff {α : Type} (w : Nat) (s : List α) (i : Nat) (x : α)
    (hi : i < s.length) :
    x ∈ windowAt w s i ↔ ∃ j, i + 1 - w ≤ j ∧ j ≤ i ∧ s[j]? = some x := by
  constructor
  · intro hx
    obtain ⟨k, hk⟩ := List.mem_iff_getElem?.mp hx
    have hkl : k < (windowAt w s i).length := by
      by_contra hc
      rw [List.getElem?_eq_none (by omega)] at hk
      exact Option.noConfusion hk
    rw [windowAt_length w s i hi] at hkl
    refine ⟨(i + 1 - w) + k, by omega, by omega, ?_⟩
    rw [← windowAt_getElem? w s i k (by omega)]
    exact hk
  · rintro ⟨j, h1, h2, hj⟩
    exact mem_windowAt w s i j x h1 h2 hj

lemma filterMap_id_map_some (l : List ℚ) :
    (l.map some).filterMap id = l := by
  simp

lemma rollingApply_getElem? (w mp : Nat) (f : List ℚ → Option ℚ)
    (s : List (Option ℚ)) (i : Nat) (hi : i < s.length) :
    (rollingApply w mp f s)[i]? =
      some (if mp ≤ ((windowAt w s i).filterMap id).length
            then f ((windowAt w s i).filterMap id) else none) := by
  simp [rollingApply, List.getElem?_range hi]

lemma rollingApply_map_some_getElem? (w mp : Nat) (f : List ℚ → Option ℚ)
    (s : List ℚ) (i : Nat) (hi : i < s.length) :
    (rollingApply w mp f (s.map some))[i]? =
      some (if mp ≤ min (i + 1) w then f (windowAt w s i) else none) := by
  rw [rollingApply_getElem? w mp f (s.map some) i (by simpa using hi)]
  rw [windowAt_map some w s i, filterMap_id_map_some, windowAt_length w s i hi]

lemma listMean_nonneg (l : List ℚ) (h : ∀ x ∈ l, 0 ≤ x) : 0 ≤ listMean l :=
  div_nonneg (List.sum_nonneg h) (Nat.cast_nonneg _)

lemma listMean_pos (l : List ℚ) (h0 : ∀ x ∈ l, 0 ≤ x) (x : ℚ) (hx : x ∈ l)
    (hpos : 0 < x) : 0 < listMean l := by
  have hlen : 0 < (l.length : ℚ) := by
    have : l ≠ [] := List.ne_nil_of_mem hx
    have : 0 < l.length := List.length_pos.mpr this
    exact_mod_cast this
  exact div_pos (lt_of_lt_of_le hpos (List.single_le_sum h0 x hx)) hlen

lemma listMean_eq_zero (l : List ℚ) (h : ∀ x ∈ l, x = 0) : listMean l = 0 := by
  unfold listMean
  rw [List.sum_eq_zero h, zero_div]

lemma rollingApply_length (w mp : Nat) (f : List ℚ → Option ℚ)
    (s : List (Option ℚ)) : (rollingApply w mp f s).length = s.length := by
  simp [rollingApply]

/-- With `min_periods=1` over a fully populated series, every rolling-mean
cell is populated: partial windows at the start are permitted. -/
lemma rollingMean_min1_all_some (w : Nat) (hw : 1 ≤ w) (s : List ℚ) :
    ∀ x ∈ rollingMean w 1 (s.map some), x.isSome = true := by
  intro x hx
  obtain ⟨i, hi⟩ := List.mem_iff_getElem?.mp hx
  have hil : i < s.length := by
    by_contra hc
    rw [List.getElem?_eq_none] at hi
    · exact Option.noConfusion hi
    · rw [rollingMean, rollingApply_length]
      simpa using Nat.le_of_not_lt hc
  rw [rollingMean, rollingApply_map_some_getElem? w 1 _ s i hil] at hi
  rw [if_pos (by omega)] at hi
  cases hi
  rfl

/-- With the strict default `min_periods = w` over a fully populated
series, the rolling-mean cell at position `i` is populated exactly when
the trailing window is full. -/
lemma rollingMean_strict_isSome (w : Nat) (s : List ℚ) (i : Nat) (hi : i < s.length) :
    ((rollingMean w w (s.map some))[i]?.getD none).isSome = true ↔ w ≤ i + 1 := by
  rw [rollingMean, rollingApply_map_some_getElem? w w _ s i hi]
  by_cases h : w ≤ i + 1
  · rw [if_pos (by omega)]
    simpa using h
  · rw [if_neg (by omega)]
    simpa using h

/-- Even with `min_periods=1`, the rolling sample standard deviation of a
fully populated series is NaN at position 0 (one observation has no
sample deviation) and populated from position 1 on, for any window of at
least 2. -/
lemma rollingStdSq_min1_isSome (w : Nat) (hw : 2 ≤ w) (s : List ℚ) (i : Nat)
    (hi : i < s.length) :
    ((rollingStdSq w 1 (s.map some))[i]?.getD none).isSome = true ↔ 1 ≤ i := by
  rw [rollingStdSq, rollingApply_map_some_getElem? w 1 sampleVar s i hi]
  rw [if_pos (by omega)]
  unfold sampleVar
  rw [windowAt_length w s i hi]
  by_cases h : 1 ≤ i
  · rw [if_pos (by omega)]
    simpa using h
  · rw [if_neg (by omega)]
    simpa using h

/-- C4 counterexample: on a fully populated two-row table the engineered
`market_ma3` column is missing at every row — the market-change rolling
statistics do not use the partial-window (`min_periods=1`) policy the
claim asserts for every signal column, so early market rows are lost to
warm-up. -/
theorem create_advanced_features_partial_window_cx :
    getFeat cx4Table "market_ma3" = some [none, none] := by
  rfl

/-- C4 (amended): only the sentiment columns' rolling statistics use the
partial-window `min_periods=1` policy — their rolling means are populated
at every row (though the sample std of the single first observation is
still NaN at row 0) — while the `market_change` rolling statistics use
strict full windows, so market row `i` has a rolling mean only once
`w ≤ i + 1`. -/
theorem create_advanced_features_window_policy
    (idx : List Date) (r nn m : List ℚ) (w : Nat)
    (hw : w ∈ ([3, 7, 14] : List Nat)) (i : Nat)
    (hir : i < r.length) (him : i < m.length) :
    (∀ x ∈ (getFeat (mkCombined idx r nn m) ("reddit_sentiment_ma" ++ toString w)).getD [],
      x.isSome = true) ∧
    ((((getFeat (mkCombined idx r nn m) ("reddit_sentiment_std" ++ toString w)).getD
        [])[i]?.getD none).isSome = true ↔ 1 ≤ i) ∧
    ((((getFeat (mkCombined idx r nn m) ("market_ma" ++ toString w)).getD
        [])[i]?.getD none).isSome = true ↔ w ≤ i + 1) := by
  have hw' : w = 3 ∨ w = 7 ∨ w = 14 := by simpa using hw
  rcases hw' with rfl | rfl | rfl
  · rw [show getFeat (mkCombined idx r nn m) ("reddit_sentiment_ma" ++ toString 3)
        = some (rollingMean 3 1 (r.map some)) from rfl,
      show getFeat (mkCombined idx r nn m) ("reddit_sentiment_std" ++ toString 3)
        = some (rollingStdSq 3 1 (r.map some)) from rfl,
      show getFeat (mkCombined idx r nn m) ("market_ma" ++ toString 3)
        = some (rollingMean 3 3 (m.map some)) from rfl]
    exact ⟨rollingMean_min1_all_some 3 (by omega) r,
      rollingStdSq_min1_isSome 3 (by omega) r i hir,
      rollingMean_strict_isSome 3 m i him⟩
  · rw [show getFeat (mkCombined idx r nn m) ("reddit_sentiment_ma" ++ toString 7)
        = some (rollingMean 7 1 (r.map some)) from rfl,
      show getFeat (mkCombined idx r nn m) ("reddit_sentiment_std" ++ toString 7)
        = some (rollingStdSq 7 1 (r.map some)) from rfl,
      show getFeat (mkCombined idx r nn m) ("market_ma" ++ toString 7)
        = some (rollingMean 7 7 (m.map some)) from rfl]
    exact ⟨rollingMean_min1_all_some 7 (by omega) r,
      rollingStdSq_min1_isSome 7 (by omega) r i hir,
      rollingMean_strict_isSome 7 m i him⟩
  · rw [show getFeat (mkCombined idx r nn m) ("reddit_sentiment_ma" ++ toString 14)
        = some (rollingMean 14 1 (r.map some)) from rfl,
      show getFeat (mkCombined idx r nn m) ("reddit_sentiment_std" ++ toString 14)
        = some (rollingStdSq 14 1 (r.map some)) from rfl,
      show getFeat (mkCombined idx r nn m) ("market_ma" ++ toString 14)
        = some (rollingMean 14 14 (m.map some)) from rfl]
    exact ⟨rollingMean_min1_all_some 14 (by omega) r,
      rollingStdSq_min1_isSome 14 (by omega) r i hir,
      rollingMean_strict_isSome 14 m i him⟩

/-- C4 witness: the amended window-policy theorem instantiated at window 3,
row 1 of a concrete three-row table. -/
theorem create_advanced_features_window_policy_witness :
    (3 ∈ ([3, 7, 14] : List Nat)) ∧ (1 < ([0, 1, 2] : List ℚ).length) ∧
    ((∀ x ∈ (getFeat (mkCombined [sampleDate 0, sampleDate 1, sampleDate 2]
        [0, 1, 2] [0, 1, 2] [1, 2, 3]) ("reddit_sentiment_ma" ++ toString 3)).getD [],
      x.isSome = true) ∧
    ((((getFeat (mkCombined [sampleDate 0, sampleDate 1, sampleDate 2]
        [0, 1, 2] [0, 1, 2] [1, 2, 3]) ("reddit_sentiment_std" ++ toString 3)).getD
        [])[1]?.getD none).isSome = true ↔ 1 ≤ 1) ∧
    ((((getFeat (mkCombined [sampleDate 0, sampleDate 1, sampleDate 2]
        [0, 1, 2] [0, 1, 2] [1, 2, 3]) ("market_ma" ++ toString 3)).getD
        [])[1]?.getD none).isSome = true ↔ 3 ≤ 1 + 1)) :=
  ⟨by decide, by decide,
    create_advanced_features_window_policy
      [sampleDate 0, sampleDate 1, sampleDate 2] [0, 1, 2] [0, 1, 2] [1, 2, 3]
      3 (by decide) 1 (by decide) (by decide)⟩

lemma getElem?_range_map {α : Type} (f : Nat → α) (n i : Nat) (h : i < n) :
    ((List.range n).map f)[i]? = some (f i) := by
  rw [List.getElem?_map, List.getElem?_range h]
  rfl

lemma diffS_length (s : List (Option ℚ)) : (diffS s).length = s.length := by
  simp [diffS]

lemma posPart_length (d : List (Option ℚ)) : (posPart d).length = d.length := by
  simp [posPart]

lemma negPart_length (d : List (Option ℚ)) : (negPart d).length = d.length := by
  simp [negPart]

/-- Every cell of `delta.where(delta > 0, 0)` is a populated nonnegative
value. -/
lemma posPart_mem (d : List (Option ℚ)) :
    ∀ o ∈ posPart d, ∃ y, o = some y ∧ 0 ≤ y := by
  intro o ho
  obtain ⟨x, _, rfl⟩ := List.mem_map.mp ho
  cases x with
  | none => exact ⟨0, rfl, le_refl 0⟩
  | some v =>
    refine ⟨if 0 < v then v else 0, rfl, ?_⟩
    split <;> simp_all [le_of_lt]

/-- Every cell of `-delta.where(delta < 0, 0)` is a populated nonnegative
value. -/
lemma negPart_mem (d : List (Option ℚ)) :
    ∀ o ∈ negPart d, ∃ y, o = some y ∧ 0 ≤ y := by
  intro o ho
  obtain ⟨x, _, rfl⟩ := List.mem_map.mp ho
  cases x with
  | none => exact ⟨0, rfl, le_refl 0⟩
  | some v =>
    refine ⟨if v < 0 then -v else 0, rfl, ?_⟩
    split <;> simp_all [le_of_lt, neg_nonneg]

lemma filterMap_id_length_all_some (S : List (Option ℚ))
    (h : ∀ o ∈ S, o.isSome = true) : (S.filterMap id).length = S.length := by
  induction S with
  | nil => rfl
  | cons a t ih =>
    cases a with
    | none => exact absurd (h none (List.mem_cons_self none t)) (by simp)
    | some v =>
      simp [List.filterMap_cons, ih (fun o ho => h o (List.mem_cons_of_mem _ ho))]

/-- The gain cell at a positive window position: the positive part of the
delta there. -/
lemma posPart_diffS_succ (m : List ℚ) (k : Nat) (hk : k + 1 < m.length) :
    (posPart (diffS (m.map some)))[k + 1]? =
      some (some (if 0 < m[k + 1]?.getD 0 - m[k]?.getD 0
                  then m[k + 1]?.getD 0 - m[k]?.getD 0 else 0)) := by
  have h0 : (m.map some)[k]? = some (some (m[k]?.getD 0)) := by
    rw [List.getElem?_map, List.getElem?_eq_getElem (by omega)]
    simp [List.getElem?_eq_getElem (show k < m.length by omega)]
  have h1 : (m.map some)[k + 1]? = some (some (m[k + 1]?.getD 0)) := by
    rw [List.getElem?_map, List.getElem?_eq_getElem hk]
    simp [List.getElem?_eq_getElem hk]
  rw [posPart, List.getElem?_map, diffS, getElem?_range_map _ _ _ (by simpa using hk)]
  simp only [h0, h1]
  rfl

/-- The loss cell at a positive window position: the magnitude of the
negative part of the delta there. -/
lemma negPart_diffS_succ (m : List ℚ) (k : Nat) (hk : k + 1 < m.length) :
    (negPart (diffS (m.map some)))[k + 1]? =
      some (some (if m[k + 1]?.getD 0 - m[k]?.getD 0 < 0
                  then -(m[k + 1]?.getD 0 - m[k]?.getD 0) else 0)) := by
  have h0 : (m.map some)[k]? = some (some (m[k]?.getD 0)) := by
    rw [List.getElem?_map, List.getElem?_eq_getElem (by omega)]
    simp [List.getElem?_eq_getElem (show k < m.length by omega)]
  have h1 : (m.map some)[k + 1]? = some (some (m[k + 1]?.getD 0)) := by
    rw [List.getElem?_map, List.getElem?_eq_getElem hk]
    simp [List.getElem?_eq_getElem hk]
  rw [negPart, List.getElem?_map, diffS, getElem?_range_map _ _ _ (by simpa using hk)]
  simp only [h0, h1]
  rfl

/-- The gain cell at position 0 is the literal 0 (the NaN first diff is
replaced by `where`). -/
lemma posPart_diffS_zero (m : List ℚ) (h : 0 < m.length) :
    (posPart (diffS (m.map some)))[0]? = some (some 0) := by
  rw [posPart, List.getElem?_map, diffS, getElem?_range_map _ _ _ (by simpa using h)]
  rfl

lemma negPart_diffS_zero (m : List ℚ) (h : 0 < m.length) :
    (negPart (diffS (m.map some)))[0]? = some (some 0) := by
  rw [negPart, List.getElem?_map, diffS, getElem?_range_map _ _ _ (by simpa using h)]
  rfl

/-- The strict-window rolling mean of an everywhere-populated series is,
at a full-window position, the mean of the trailing window's values. -/
lemma rollingMean_strict_entry (w : Nat) (S : List (Option ℚ)) (i : Nat)
    (hi : i < S.length) (hw : w ≤ i + 1)
    (hall : ∀ o ∈ S, ∃ y, o = some y ∧ 0 ≤ y) :
    (rollingMean w w S)[i]? =
      some (some (listMean ((windowAt w S i).filterMap id))) := by
  rw [rollingMean, rollingApply_getElem? w w _ S i hi]
  rw [if_pos ?_]
  have hlen : ((windowAt w S i).filterMap id).length = (windowAt w S i).length := by
    refine filterMap_id_length_all_some _ (fun o ho => ?_)
    obtain ⟨y, rfl, -⟩ := hall o (windowAt_subset w S i ho)
    rfl
  rw [hlen, windowAt_length w S i hi]
  omega

/-- Below a full window, the strict-window rolling mean cell is NaN. -/
lemma rollingMean_strict_entry_none (w : Nat) (S : List (Option ℚ)) (i : Nat)
    (hi : i < S.length) (hw : i + 1 < w) :
    (rollingMean w w S)[i]? = some none := by
  rw [rollingMean, rollingApply_getElem? w w _ S i hi]
  rw [if_neg ?_]
  have hle : ((windowAt w S i).filterMap id).length ≤ (windowAt w S i).length :=
    List.length_filterMap_le id _
  rw [windowAt_length w S i hi] at hle
  omega

/-- `market_rsi` is definitionally the zip of the two strict rolling
means under `rsiCombine`. -/
lemma market_rsi_eq_zip (w : Nat) (s : List (Option ℚ)) :
    market_rsi w s =
      List.zipWith rsiCombine (rollingMean w w (posPart (diffS s)))
        (rollingMean w w (negPart (diffS s))) := rfl

/-- Values in the aggregated window of the gain/loss series are
nonnegative. -/
lemma window_vals_nonneg (w : Nat) (S : List (Option ℚ)) (i : Nat)
    (hall : ∀ o ∈ S, ∃ y, o = some y ∧ 0 ≤ y) :
    ∀ x ∈ (windowAt w S i).filterMap id, 0 ≤ x := by
  intro x hx
  obtain ⟨o, ho, hox⟩ := List.mem_filterMap.mp hx
  obtain ⟨y, rfl, hy⟩ := hall o (windowAt_subset w S i ho)
  cases hox
  exact hy

/-- C5: for every market-change series and window in {3, 7, 14}, the RSI
cell at a full-window position whose delta window holds at least one
positive and at least one negative delta is a defined value in [0, 100];
and when every delta in the window is zero the cell is the defined NaN
sentinel (the 0/0 of `gain/loss`) rather than an uncaught
division-by-zero error. -/
theorem market_rsi_bounds_and_sentinel
    (m : List ℚ) (w : Nat) (hw : w ∈ ([3, 7, 14] : List Nat)) (i : Nat)
    (hi : i < m.length) :
    ((w ≤ i + 1) →
      (∃ jp, i + 1 - w ≤ jp ∧ jp ≤ i ∧ 1 ≤ jp ∧ m[jp - 1]?.getD 0 < m[jp]?.getD 0) →
      (∃ jn, i + 1 - w ≤ jn ∧ jn ≤ i ∧ 1 ≤ jn ∧ m[jn]?.getD 0 < m[jn - 1]?.getD 0) →
      ∃ r, (market_rsi w (m.map some))[i]? = some (some r) ∧ 0 ≤ r ∧ r ≤ 100) ∧
    ((∀ j, i + 1 - w ≤ j → j ≤ i → 1 ≤ j → m[j]?.getD 0 = m[j - 1]?.getD 0) →
      (market_rsi w (m.map some))[i]? = some none) := by
  have hGlen : (posPart (diffS (m.map some))).length = m.length := by
    rw [posPart_length, diffS_length, List.length_map]
  have hLlen : (negPart (diffS (m.map some))).length = m.length := by
    rw [negPart_length, diffS_length, List.length_map]
  have hGmem := posPart_mem (diffS (m.map some))
  have hLmem := negPart_mem (diffS (m.map some))
  constructor
  · rintro hfull ⟨jp, hjp1, hjp2, hjp3, hjp4⟩ ⟨jn, hjn1, hjn2, hjn3, hjn4⟩
    have hgain := rollingMean_strict_entry w _ i (by rw [hGlen]; exact hi) hfull hGmem
    have hloss := rollingMean_strict_entry w _ i (by rw [hLlen]; exact hi) hfull hLmem
    have hGnonneg : 0 ≤ listMean ((windowAt w (posPart (diffS (m.map some))) i).filterMap id) :=
      listMean_nonneg _ (window_vals_nonneg w _ i hGmem)
    obtain ⟨k, rfl⟩ : ∃ k, jn = k + 1 := ⟨jn - 1, by omega⟩
    have hd : m[k + 1]?.getD 0 - m[k]?.getD 0 < 0 := by
      have : m[k + 1]?.getD 0 < m[k + 1 - 1]?.getD 0 := hjn4
      simp only [Nat.add_sub_cancel] at this
      linarith
    have hLval : (negPart (diffS (m.map some)))[k + 1]? =
        some (some (-(m[k + 1]?.getD 0 - m[k]?.getD 0))) := by
      rw [negPart_diffS_succ m k (by omega), if_pos hd]
    have hmemL : some (-(m[k + 1]?.getD 0 - m[k]?.getD 0)) ∈
        windowAt w (negPart (diffS (m.map some))) i :=
      mem_windowAt w _ i (k + 1) _ hjn1 hjn2 hLval
    have hvalL : -(m[k + 1]?.getD 0 - m[k]?.getD 0) ∈
        (windowAt w (negPart (diffS (m.map some))) i).filterMap id :=
      List.mem_filterMap.mpr ⟨_, hmemL, rfl⟩
    have hLpos : 0 < listMean ((windowAt w (negPart (diffS (m.map some))) i).filterMap id) :=
      listMean_pos _ (window_vals_nonneg w _ i hLmem) _ hvalL (by linarith)
    have hzip : (market_rsi w (m.map some))[i]? =
        some (rsiCombine
          (some (listMean ((windowAt w (posPart (diffS (m.map some))) i).filterMap id)))
          (some (listMean ((windowAt w (negPart (diffS (m.map some))) i).filterMap id)))) := by
      rw [market_rsi_eq_zip, List.getElem?_zipWith, hgain, hloss]
    refine ⟨100 - 100 / (1 +
        listMean ((windowAt w (posPart (diffS (m.map some))) i).filterMap id) /
        listMean ((windowAt w (negPart (diffS (m.map some))) i).filterMap id)), ?_, ?_, ?_⟩
    · rw [hzip]
      simp [rsiCombine, if_pos hLpos]
    · have hq : 0 ≤ listMean ((windowAt w (posPart (diffS (m.map some))) i).filterMap id) /
          listMean ((windowAt w (negPart (diffS (m.map some))) i).filterMap id) :=
        div_nonneg hGnonneg (le_of_lt hLpos)
      have hub : 100 / (1 +
          listMean ((windowAt w (posPart (diffS (m.map some))) i).filterMap id) /
          listMean ((windowAt w (negPart (diffS (m.map some))) i).filterMap id)) ≤ 100 :=
        div_le_self (by norm_num) (by linarith)
      linarith
    · have hq : 0 ≤ listMean ((windowAt w (posPart (diffS (m.map some))) i).filterMap id) /
          listMean ((windowAt w (negPart (diffS (m.map some))) i).filterMap id) :=
        div_nonneg hGnonneg (le_of_lt hLpos)
      have hpos : 0 < 100 / (1 +
          listMean ((windowAt w (posPart (diffS (m.map some))) i).filterMap id) /
          listMean ((windowAt w (negPart (diffS (m.map some))) i).filterMap id)) :=
        div_pos (by norm_num) (by linarith)
      linarith
  · intro hzero
    by_cases hfull : w ≤ i + 1
    · have hGall0 : ∀ x ∈ (windowAt w (posPart (diffS (m.map some))) i).filterMap id,
          x = 0 := by
        intro x hx
        obtain ⟨o, ho, hox⟩ := List.mem_filterMap.mp hx
        obtain ⟨j, hj1, hj2, hjval⟩ :=
          (mem_windowAt_iff w _ i o (by rw [hGlen]; exact hi)).mp ho
        cases j with
        | zero =>
          rw [posPart_diffS_zero m (by omega)] at hjval
          cases hjval
          cases hox
          rfl
        | succ k =>
          rw [posPart_diffS_succ m k (by omega)] at hjval
          have hd0 : m[k + 1]?.getD 0 - m[k]?.getD 0 = 0 := by
            have := hzero (k + 1) hj1 hj2 (by omega)
            simp only [Nat.add_sub_cancel] at this
            linarith
          rw [hd0] at hjval
          simp only [lt_irrefl, if_neg (lt_irrefl 0)] at hjval
          cases hjval
          cases hox
          rfl
      have hLall0 : ∀ x ∈ (windowAt w (negPart (diffS (m.map some))) i).filterMap id,
          x = 0 := by
        intro x hx
        obtain ⟨o, ho, hox⟩ := List.mem_filterMap.mp hx
        obtain ⟨j, hj1, hj2, hjval⟩ :=
          (mem_windowAt_iff w _ i o (by rw [hLlen]; exact hi)).mp ho
        cases j with
        | zero =>
          rw [negPart_diffS_zero m (by omega)] at hjval
          cases hjval
          cases hox
          rfl
        | succ k =>
          rw [negPart_diffS_succ m k (by omega)] at hjval
          have hd0 : m[k + 1]?.getD 0 - m[k]?.getD 0 = 0 := by
            have := hzero (k + 1) hj1 hj2 (by omega)
            simp only [Nat.add_sub_cancel] at this
            linarith
          rw [hd0] at hjval
          simp only [lt_irrefl, if_neg (lt_irrefl (0 : ℚ))] at hjval
          cases hjval
          cases hox
          rfl
      have hgain := rollingMean_strict_entry w _ i (by rw [hGlen]; exact hi) hfull hGmem
      have hloss := rollingMean_strict_entry w _ i (by rw [hLlen]; exact hi) hfull hLmem
      rw [listMean_eq_zero _ hGall0] at hgain
      rw [listMean_eq_zero _ hLall0] at hloss
      rw [market_rsi_eq_zip, List.getElem?_zipWith, hgain, hloss]
      simp [rsiCombine]
    · have hgain := rollingMean_strict_entry_none w
        (posPart (diffS (m.map some))) i (by rw [hGlen]; exact hi) (by omega)
      have hloss := rollingMean_strict_entry_none w
        (negPart (diffS (m.map some))) i (by rw [hLlen]; exact hi) (by omega)
      rw [market_rsi_eq_zip, List.getElem?_zipWith, hgain, hloss]
      simp [rsiCombine]

/-- C5 witness: window 3 at position 2 of the concrete series
[1, 2, 0, 1, 1, 1] (one gain at j=1, one loss at j=2) yields a defined
RSI in [0, 100]; on the constant series [5, 5, 5, 5] every cell of the
same window's RSI is the NaN sentinel. -/
theorem market_rsi_bounds_and_sentinel_witness :
    (2 < ([1, 2, 0, 1, 1, 1] : List ℚ).length) ∧
    (∃ r, (market_rsi 3 (([1, 2, 0, 1, 1, 1] : List ℚ).map some))[2]? =
        some (some r) ∧ 0 ≤ r ∧ r ≤ 100) ∧
    (market_rsi 3 (([5, 5, 5, 5] : List ℚ).map some))[2]? = some none :=
  ⟨by simp,
   (market_rsi_bounds_and_sentinel ([1, 2, 0, 1, 1, 1] : List ℚ) 3 (by simp) 2
      (by simp)).1 (by omega)
     ⟨1, by omega, by omega, by omega, by simp⟩
     ⟨2, by omega, by omega, by omega, by simp⟩,
   (market_rsi_bounds_and_sentinel ([5, 5, 5, 5] : List ℚ) 3 (by simp) 2
      (by simp)).2 (by intro j h1 h2 h3; interval_cases j <;> simp)⟩

/-- C6 counterexample: with R² scores (0.8, −0.3, 0.3, 0.2) — total 1 —
the `rf` member receives the negative weight −3/10, so ensemble weights
are not always nonnegative when a member's R² is negative. -/
theorem normalizeWeights_negative_cx :
    ((normalizeWeights
        [("gbm", 4/5), ("rf", -(3/10)), ("nn", 3/10), ("lasso", 1/5)]).lookup "rf")
      = some (-(3/10)) ∧ (-(3/10) : ℚ) < 0 := by
  constructor
  · simp [normalizeWeights, List.lookup]
    norm_num
  · norm_num

/-- C6 (amended): the weights always sum to 1 whenever the total of the
raw R² scores is nonzero, and they are all nonnegative when every R²
score is nonnegative; but a member with negative R² receives a negative
weight (no clamping), as the counterexample shows. -/
theorem normalizeWeights_sum_one
    (scores : List (String × ℚ)) (htot : (scores.map Prod.snd).sum ≠ 0) :
    ((normalizeWeights scores).map Prod.snd).sum = 1 ∧
    ((∀ p ∈ scores, 0 ≤ p.2) → ∀ q ∈ normalizeWeights scores, 0 ≤ q.2) := by
  constructor
  · unfold normalizeWeights
    rw [List.map_map]
    have : (Prod.snd ∘ fun p : String × ℚ =>
        (p.1, p.2 / (scores.map Prod.snd).sum)) =
        fun p : String × ℚ => p.2 * ((scores.map Prod.snd).sum)⁻¹ := by
      funext p
      simp [div_eq_mul_inv]
    rw [this]
    have hrw : (scores.map fun p : String × ℚ =>
        p.2 * ((scores.map Prod.snd).sum)⁻¹).sum =
        (scores.map Prod.snd).sum * ((scores.map Prod.snd).sum)⁻¹ := by
      rw [← List.sum_map_mul_right]
    rw [hrw, mul_inv_cancel₀ htot]
  · intro hnn q hq
    unfold normalizeWeights at hq
    obtain ⟨p, hp, rfl⟩ := List.mem_map.mp hq
    have hple : 0 ≤ (scores.map Prod.snd).sum := by
      refine List.sum_nonneg ?_
      intro x hx
      obtain ⟨c, hc, rfl⟩ := List.mem_map.mp hx
      exact hnn c hc
    exact div_nonneg (hnn p hp) hple

/-- C6 witness: the amended theorem at a concrete nonzero score total:
the weights sum to 1 and nonnegative scores give nonnegative weights. -/
theorem normalizeWeights_sum_one_witness :
    ((([("gbm", (1:ℚ))].map Prod.snd).sum ≠ 0) ∧
    (((normalizeWeights [("gbm", (1:ℚ))]).map Prod.snd).sum = 1 ∧
      ((∀ p ∈ [("gbm", (1:ℚ))], 0 ≤ p.2) →
        ∀ q ∈ normalizeWeights [("gbm", (1:ℚ))], 0 ≤ q.2))) :=
  ⟨by simp, normalizeWeights_sum_one _ (by simp)⟩

/-- C7: in every fold of the 5-fold expanding-window split used by
`train_models`, every validation row index strictly follows every
training row index of that fold — no validation row precedes a training
row. -/
theorem timeSeriesSplit_temporal_order (n : Nat) (fold : List Nat × List Nat)
    (hf : fold ∈ timeSeriesSplit n 5) (tr va : Nat)
    (htr : tr ∈ fold.1) (hva : va ∈ fold.2) : tr < va := by
  unfold timeSeriesSplit at hf
  obtain ⟨k, -, rfl⟩ := List.mem_map.mp hf
  simp only [List.mem_range] at htr
  obtain ⟨j, -, rfl⟩ := List.mem_map.mp hva
  omega

/-- C7 witness: in the first fold over 12 samples (train `[0, 1]`,
validate `[2, 3]`) the training index 1 precedes the validation
index 2. -/
theorem timeSeriesSplit_temporal_order_witness :
    (([0, 1], [2, 3]) ∈ timeSeriesSplit 12 5) ∧ 1 ∈ [0, 1] ∧ 2 ∈ [2, 3] ∧ 1 < 2 :=
  ⟨by decide, by decide, by decide,
    timeSeriesSplit_temporal_order 12 ([0, 1], [2, 3]) (by decide) 1 2
      (by decide) (by decide)⟩

/-- A looked-up value comes from an entry of the association list. -/
lemma lookup_mem {α : Type} (l : List (String × α)) (k : String) (v : α)
    (h : l.lookup k = some v) : (k, v) ∈ l := by
  induction l with
  | nil => simp [List.lookup] at h
  | cons a t ih =>
    cases a with
    | mk k' v' =>
      simp only [List.lookup] at h
      by_cases hk : (k == k')
      · rw [hk] at h
        simp only [Option.some.injEq] at h
        subst h
        have : k = k' := by simpa using hk
        subst this
        exact List.mem_cons_self _ _
      · rw [Bool.not_eq_true] at hk
        rw [hk] at h
        exact List.mem_cons_of_mem _ (ih h)

/-- The engineered frame's `market_change` column is exactly the raw
input column (or absent with it). -/
lemma lookup_market_create (t : Table) :
    (create_advanced_features t).lookup "market_change" =
      t.getCol "market_change" := by
  rcases h1 : t.getCol "reddit_sentiment" with - | s1 <;>
    rcases h2 : t.getCol "news_sentiment" with - | s2 <;>
      rcases h3 : t.getCol "market_change" with - | s3 <;>
        simp [create_advanced_features, sentFeatures, marketFeatures,
          h1, h2, h3, List.lookup]

/-- A shifted target over a column no longer than the horizon is
undefined everywhere. -/
lemma shiftNeg_all_none (k : Nat) (col : List (Option ℚ))
    (h : col.length ≤ k) :
    (shiftNeg k col).all (fun o => o.isNone) = true := by
  rw [List.all_eq_true]
  intro o ho
  obtain ⟨i, hi, rfl⟩ := List.mem_map.mp ho
  rw [List.mem_range] at hi
  rw [if_neg (by omega)]
  rfl

lemma shiftNeg_length (k : Nat) (col : List (Option ℚ)) :
    (shiftNeg k col).length = col.length := by
  simp [shiftNeg]

/-- A member whose fit or dump raises makes the loop return `None`. -/
lemma runMemberLoop_none (l : List (String × MemberEvent))
    (h : ∃ p ∈ l, p.2 = MemberEvent.fitFail ∨ p.2 = MemberEvent.dumpFail) :
    (runMemberLoop l).2 = none := by
  induction l with
  | nil =>
    obtain ⟨p, hp, -⟩ := h
    cases hp
  | cons a rest ih =>
    obtain ⟨p, hp, hfail⟩ := h
    rcases List.mem_cons.mp hp with rfl | htail
    · cases p with
      | mk n ev =>
        rcases hfail with h1 | h1 <;> (simp only at h1; subst h1; rfl)
    · cases a with
      | mk n ev =>
        cases ev with
        | ok m => simp [runMemberLoop, ih ⟨p, htail, hfail⟩]
        | fitFail => rfl
        | dumpFail => rfl

/-- Dropping a `none` cell shortens `filterMap id` strictly. -/
lemma filterMap_id_length_lt_of_none_mem (S : List (Option ℚ))
    (h : (none : Option ℚ) ∈ S) : (S.filterMap id).length < S.length := by
  obtain ⟨s1, s2, rfl⟩ := List.append_of_mem h
  rw [List.filterMap_append]
  have hcons : ((none : Option ℚ) :: s2).filterMap id = s2.filterMap id := by simp
  rw [hcons]
  have h1 := List.length_filterMap_le (id : Option ℚ → Option ℚ) s1
  have h2 := List.length_filterMap_le (id : Option ℚ → Option ℚ) s2
  rw [List.length_append, List.length_append, List.length_cons]
  omega

/-- Whenever any row survives the target mask, the retained (unimputed)
feature matrix holds a NaN: at the least retained row `i0` the strict
14-window `market_ma14` cell is undefined — either its window is not yet
full (`i0 < 13`), or the minimality of `i0` forces the market cell 6
steps back (whose own row would otherwise be retained 13 rows earlier)
to be NaN inside the window. -/
lemma featureMatrixHasNaN_of_kept (t : Table) (tcol : List (Option ℚ))
    (hm : (create_advanced_features t).lookup "market_change" = some tcol)
    (hnot : ¬ ((shiftNeg 7 tcol).all (fun o => o.isNone) = true)) :
    featureMatrixHasNaN t = true := by
  classical
  have hcol : t.getCol "market_change" = some tcol := by
    rw [← lookup_market_create t]
    exact hm
  have hex : ∃ i, ((shiftNeg 7 tcol).getD i none).isSome = true := by
    rw [List.all_eq_true] at hnot
    push_neg at hnot
    obtain ⟨o, ho, hno⟩ := hnot
    obtain ⟨i, hi⟩ := List.mem_iff_getElem?.mp ho
    refine ⟨i, ?_⟩
    rw [List.getD_eq_getElem?_getD, hi]
    cases o with
    | none => exact absurd rfl hno
    | some v => rfl
  have hP0 := Nat.find_spec hex
  have hmin : ∀ j, j < Nat.find hex →
      ¬ ((shiftNeg 7 tcol).getD j none).isSome = true :=
    fun j hj => Nat.find_min hex hj
  have hi0lt : Nat.find hex < tcol.length := by
    by_contra hc
    have hnone : (shiftNeg 7 tcol).getD (Nat.find hex) none = none := by
      rw [List.getD_eq_getElem?_getD,
        List.getElem?_eq_none (by rw [shiftNeg_length]; omega)]
      rfl
    rw [hnone] at hP0
    simp at hP0
  simp only [featureMatrixHasNaN, hm]
  rw [List.any_eq_true]
  refine ⟨("market_ma14", rollingMean 14 14 tcol), ?_, ?_⟩
  · refine List.mem_filter.mpr ⟨?_, rfl⟩
    unfold create_advanced_features
    rw [hcol]
    refine List.mem_append_left _ (List.mem_append_right _ ?_)
    simp [marketFeatures]
  · rw [List.any_eq_true]
    refine ⟨Nat.find hex, List.mem_range.mpr ?_, ?_⟩
    · rw [rollingMean, rollingApply_length]
      exact hi0lt
    · rw [Bool.and_eq_true]
      constructor
      · rw [Bool.not_eq_true']
        cases hcell : (shiftNeg 7 tcol).getD (Nat.find hex) none with
        | none => rw [hcell] at hP0; simp at hP0
        | some v => simp
      · have hval : (rollingMean 14 14 tcol)[Nat.find hex]? =
            some (if 14 ≤ ((windowAt 14 tcol (Nat.find hex)).filterMap id).length
                  then some (listMean ((windowAt 14 tcol (Nat.find hex)).filterMap id))
                  else none) :=
          rollingApply_getElem? 14 14 _ tcol (Nat.find hex) hi0lt
        have hlt : ((windowAt 14 tcol (Nat.find hex)).filterMap id).length < 14 := by
          by_cases h13 : Nat.find hex + 1 < 14
          · have hle := List.length_filterMap_le (id : Option ℚ → Option ℚ)
              (windowAt 14 tcol (Nat.find hex))
            rw [windowAt_length 14 tcol (Nat.find hex) hi0lt] at hle
            omega
          · have hcell6 : tcol[Nat.find hex - 6]? = some none := by
              rcases hc6 : tcol[Nat.find hex - 6]? with - | c
              · rw [List.getElem?_eq_none_iff] at hc6
                omega
              · cases c with
                | none => rfl
                | some v =>
                  exfalso
                  have hkept : ((shiftNeg 7 tcol).getD (Nat.find hex - 13) none).isSome
                      = true := by
                    rw [List.getD_eq_getElem?_getD]
                    have hy13 : (shiftNeg 7 tcol)[Nat.find hex - 13]? =
                        some (if (Nat.find hex - 13) + 7 < tcol.length
                              then tcol[(Nat.find hex - 13) + 7]?.getD none
                              else none) := by
                      unfold shiftNeg
                      exact getElem?_range_map _ _ _ (by omega)
                    rw [hy13, if_pos (by omega),
                      show Nat.find hex - 13 + 7 = Nat.find hex - 6 by omega, hc6]
                    rfl
                  exact hmin (Nat.find hex - 13) (by omega) hkept
            have hmem : (none : Option ℚ) ∈ windowAt 14 tcol (Nat.find hex) :=
              mem_windowAt 14 tcol (Nat.find hex) (Nat.find hex - 6) none
                (by omega) (by omega) hcell6
            have hstrict := filterMap_id_length_lt_of_none_mem _ hmem
            rw [windowAt_length 14 tcol (Nat.find hex) hi0lt] at hstrict
            omega
        rw [List.getD_eq_getElem?_getD, hval, if_neg (by omega)]
        rfl

/-- In every environment, `train_models` returns `None` for the scores:
a missing target raises; an emptied matrix makes the scaler raise; and
otherwise the retained matrix holds a NaN that `nn`'s fit rejects, so
the loop aborts and the broad `except` returns `None`. -/
lemma train_models_snd_none (t : Table) (events : String → MemberEvent) :
    (train_models t events).2 = none := by
  simp only [train_models]
  rcases hm : (create_advanced_features t).lookup "market_change" with - | tcol
  · rfl
  · show (if ((shiftNeg 7 tcol).all fun o => o.isNone) = true
          then (([], none) : List String × Option (List (String × Metrics)))
          else runMemberLoop (effectiveEvents (featureMatrixHasNaN t) events)).2 = none
    by_cases hall : ((shiftNeg 7 tcol).all fun o => o.isNone) = true
    · rw [if_pos hall]
    · rw [if_neg hall, featureMatrixHasNaN_of_kept t tcol hm hall]
      refine runMemberLoop_none _ ⟨("nn", MemberEvent.fitFail), ?_, Or.inl rfl⟩
      have heff : effectiveEvents true events =
          [("gbm", events "gbm"), ("rf", events "rf"),
           ("nn", MemberEvent.fitFail), ("lasso", MemberEvent.fitFail)] := rfl
      rw [heff]
      exact List.mem_cons_of_mem _ (List.mem_cons_of_mem _ (List.mem_cons_self _ _))

/-- C3 counterexample: a 15-row stale table fails the quality gate, yet
the pipeline still invokes the trainer; in an environment whose tree
members tolerate the NaN matrix (the same realizable shape as the C9
trace), `gbm` and `rf` are trained and their artifacts persisted on the
gate-rejected table before the NaN-rejecting `nn` aborts the run — the
Ensemble Trainer does run, and partially trains, on the invalid table
(while still returning `None` for the scores). -/
theorem run_pipeline_gate_not_enforced_cx :
    (run_pipeline_training 10000 bigStale allOkEvents).1.is_valid = false ∧
    (run_pipeline_training 10000 bigStale allOkEvents).2 = (["gbm", "rf"], none) := by
  constructor
  · simp only [run_pipeline_training, DataValidator.check_data_quality]
    have hne : bigStale.empty = false := by decide
    simp [hne, Bool.and_eq_true, Bool.not_eq_true', decide_eq_false_iff_not, not_lt,
      List.all_eq_true]
    exact fun _ _ => by decide
  · rfl

/-- C3 (amended): the pipeline invokes the trainer unconditionally, and
in every environment the trainer's result is the failure value `None`
rather than a scores dict — it never throws (the broad `except` absorbs
the raise: a missing target is a KeyError, an emptied matrix makes the
scaler raise, and any retained row leaves a NaN that the `nn`/`lasso`
fits reject).  On the claim's 3-row table the gate reports
`is_valid = false` with the insufficient-data issue and the trainer
persists nothing (no row survives target construction) — but this
refusal never consults the gate: on a larger gate-failing table the
tree members can still be trained and persisted (see the
counterexample). -/
theorem run_pipeline_training_failure_value (now : Int) (t : Table)
    (events : String → MemberEvent) :
    (run_pipeline_training now t events).2.2 = none ∧
    (t.index.length = 3 → t.cols ≠ [] →
      (∀ c ∈ t.cols, c.2.length = t.index.length) →
      (run_pipeline_training now t events).1.is_valid = false ∧
      "Insufficient data points (minimum 7 required)" ∈
        (run_pipeline_training now t events).1.issues ∧
      (run_pipeline_training now t events).2 = ([], none)) := by
  constructor
  · exact train_models_snd_none t events
  · intro h3 hcols hwf
    have hne : t.empty = false := by
      unfold Table.empty
      rw [Bool.or_eq_false_iff]
      constructor
      · rw [List.isEmpty_eq_false_iff_exists_mem]
        have : 0 < t.index.length := by omega
        obtain ⟨a, ha⟩ := List.exists_mem_of_length_pos this
        exact ⟨a, ha⟩
      · rw [List.isEmpty_eq_false_iff_exists_mem]
        obtain ⟨a, ha⟩ := List.exists_mem_of_ne_nil _ hcols
        exact ⟨a, ha⟩
    refine ⟨?_, ?_, ?_⟩
    · unfold run_pipeline_training DataValidator.check_data_quality
      simp [hne, Table.nrows, h3]
    · unfold run_pipeline_training DataValidator.check_data_quality
      simp [hne, Table.nrows, h3]
    · simp only [run_pipeline_training, train_models]
      rw [lookup_market_create t]
      rcases hm : t.getCol "market_change" with - | s
      · rfl
      · have hs : ("market_change", s) ∈ t.cols := lookup_mem t.cols _ s hm
        have hlen : s.length = 3 := by
          rw [hwf ("market_change", s) hs, h3]
        show (if ((shiftNeg 7 s).all fun o => o.isNone) = true
              then (([], none) : List String × Option (List (String × Metrics)))
              else runMemberLoop (effectiveEvents (featureMatrixHasNaN t) events))
            = ([], none)
        rw [shiftNeg_all_none 7 s (by omega)]
        simp

/-- C3 witness: the amended theorem at a concrete 3-row table in the
all-fits-succeed environment. -/
theorem run_pipeline_training_failure_value_witness :
    (run_pipeline_training 2 t3Table allOkEvents).2.2 = none ∧
    ((run_pipeline_training 2 t3Table allOkEvents).1.is_valid = false ∧
      "Insufficient data points (minimum 7 required)" ∈
        (run_pipeline_training 2 t3Table allOkEvents).1.issues ∧
      (run_pipeline_training 2 t3Table allOkEvents).2 = ([], none)) :=
  ⟨(run_pipeline_training_failure_value 2 t3Table allOkEvents).1,
   (run_pipeline_training_failure_value 2 t3Table allOkEvents).2
     (by decide) (by decide) (by decide)⟩

/-- C9 counterexample: one training run where `gbm` succeeds (metrics
computed, artifact dumped) and then `rf`'s fit raises: the run returns
`None` — no metrics are returned for any member — yet `gbm`'s artifact
remains persisted, so persistence is not all-or-nothing per member. -/
theorem train_models_partial_persist_cx :
    train_models bigStale rfFailEvents = (["gbm"], none) := by
  rfl

/-- C9 (amended): the artifact/metrics coupling only holds for runs in
which every member succeeds — then each member's artifact is persisted
and its metrics returned; but as soon as a later member fails, the run
returns no metrics at all while the artifacts of the earlier successful
members remain persisted. -/
theorem runMemberLoop_all_or_nothing (events : List (String × MemberEvent)) :
    ((∀ e ∈ events, ∃ mm, e.2 = MemberEvent.ok mm) →
      (runMemberLoop events).1 = events.map Prod.fst ∧
      ∃ ss, (runMemberLoop events).2 = some ss ∧
        ss.map Prod.fst = events.map Prod.fst) ∧
    (∀ name mm rest, events = (name, MemberEvent.ok mm) :: rest →
      (runMemberLoop rest).2 = none →
      name ∈ (runMemberLoop events).1 ∧ (runMemberLoop events).2 = none) := by
  constructor
  · induction events with
    | nil => exact fun _ => ⟨rfl, [], rfl, rfl⟩
    | cons e rest ih =>
      intro hok
      obtain ⟨mm, hmm⟩ := hok e (List.mem_cons_self e rest)
      cases e with
      | mk n ev =>
        simp only at hmm
        subst hmm
        obtain ⟨h1, ss, h2, h3⟩ := ih (fun e he => hok e (List.mem_cons_of_mem _ he))
        refine ⟨?_, (n, mm) :: ss, ?_, ?_⟩
        · simp [runMemberLoop, h1]
        · simp [runMemberLoop, h2]
        · simp [h3]
  · rintro name mm rest rfl hrest
    refine ⟨List.mem_cons_self _ _, ?_⟩
    simp [runMemberLoop, hrest]

/-- C9 witness: the amended theorem — an all-success run couples
artifacts and metrics, and a run whose second member fails keeps the
first member's artifact with no metrics returned. -/
theorem runMemberLoop_all_or_nothing_witness :
    ((runMemberLoop [("gbm", MemberEvent.ok zMetrics)]).1
        = [("gbm", MemberEvent.ok zMetrics)].map Prod.fst ∧
      ∃ ss, (runMemberLoop [("gbm", MemberEvent.ok zMetrics)]).2 = some ss ∧
        ss.map Prod.fst = [("gbm", MemberEvent.ok zMetrics)].map Prod.fst) ∧
    ("gbm" ∈ (runMemberLoop [("gbm", MemberEvent.ok zMetrics),
        ("rf", MemberEvent.fitFail)]).1 ∧
      (runMemberLoop [("gbm", MemberEvent.ok zMetrics),
        ("rf", MemberEvent.fitFail)]).2 = none) :=
  ⟨(runMemberLoop_all_or_nothing [("gbm", MemberEvent.ok zMetrics)]).1
      (fun e he => by
        rw [List.mem_singleton] at he
        exact ⟨zMetrics, by rw [he]⟩),
   (runMemberLoop_all_or_nothing [("gbm", MemberEvent.ok zMetrics),
        ("rf", MemberEvent.fitFail)]).2 "gbm" zMetrics
      [("rf", MemberEvent.fitFail)] rfl rfl⟩

lemma foldl_min_le_init (l : List ℚ) (acc : ℚ) : l.foldl min acc ≤ acc := by
  induction l generalizing acc with
  | nil => exact le_refl acc
  | cons a t ih => exact le_trans (ih (min acc a)) (min_le_left acc a)

lemma foldl_min_le_mem (l : List ℚ) (acc v : ℚ) (hv : v ∈ l) :
    l.foldl min acc ≤ v := by
  induction l generalizing acc with
  | nil => cases hv
  | cons a t ih =>
    rcases List.mem_cons.mp hv with rfl | hvt
    · exact le_trans (foldl_min_le_init t (min acc v)) (min_le_right acc v)
    · exact ih (min acc a) hvt

lemma le_foldl_max_init (l : List ℚ) (acc : ℚ) : acc ≤ l.foldl max acc := by
  induction l generalizing acc with
  | nil => exact le_refl acc
  | cons a t ih => exact le_trans (le_max_left acc a) (ih (max acc a))

lemma le_foldl_max_mem (l : List ℚ) (acc v : ℚ) (hv : v ∈ l) :
    v ≤ l.foldl max acc := by
  induction l generalizing acc with
  | nil => cases hv
  | cons a t ih =>
    rcases List.mem_cons.mp hv with rfl | hvt
    · exact le_trans (le_max_right acc v) (le_foldl_max_init t (max acc v))
    · exact ih (max acc a) hvt

lemma seriesMin_le (l : List ℚ) (v : ℚ) (hv : v ∈ l) : seriesMin l ≤ v :=
  foldl_min_le_mem l (l.headD 0) v hv

lemma le_seriesMax (l : List ℚ) (v : ℚ) (hv : v ∈ l) : v ≤ seriesMax l :=
  le_foldl_max_mem l (l.headD 0) v hv

/-- C8: a sentiment column holding a value outside [-1, 1] is recorded
as a range violation (`within_range = false`) in the reporter's
`value_ranges`; the reporter is a total function (no exception escapes)
and leaves the frame's value columns exactly as it received them. -/
theorem check_data_consistency_flags_range (data : Table) (name : String)
    (col : List (Option ℚ)) (hcol : (name, col) ∈ data.cols)
    (hsent : strContainsSub name "sentiment" = true)
    (v : ℚ) (hv : some v ∈ col) (hout : v < -1 ∨ 1 < v) :
    (∃ cr, (name, cr) ∈ (check_data_consistency data).1.value_ranges ∧
      cr.within_range = false) ∧
    (check_data_consistency data).2 = data := by
  have hvm : v ∈ col.filterMap id := List.mem_filterMap.mpr ⟨some v, hv, rfl⟩
  have hne : (col.filterMap id).isEmpty = false := by
    rw [List.isEmpty_eq_false_iff_exists_mem]
    exact ⟨v, hvm⟩
  refine ⟨⟨{ min := seriesMin (col.filterMap id)
             max := seriesMax (col.filterMap id)
             within_range :=
               (if strContainsSub name "sentiment"
                then decide (-1 ≤ seriesMin (col.filterMap id)) else true)
               && (if strContainsSub name "sentiment"
                   then decide (seriesMax (col.filterMap id) ≤ 1) else true) },
      ?_, ?_⟩, rfl⟩
  · unfold check_data_consistency
    refine List.mem_filterMap.mpr ⟨(name, col), hcol, ?_⟩
    simp only [hne, Bool.false_eq_true, if_false]
  · rw [hsent, if_pos rfl, if_pos rfl]
    rcases hout with hlt | hgt
    · have : seriesMin (col.filterMap id) < -1 :=
        lt_of_le_of_lt (seriesMin_le _ v hvm) hlt
      rw [Bool.and_eq_false_iff]
      left
      simpa using not_le.mpr this
    · have : 1 < seriesMax (col.filterMap id) :=
        lt_of_lt_of_le hgt (le_seriesMax _ v hvm)
      rw [Bool.and_eq_false_iff]
      right
      simpa using not_le.mpr this

/-- C8 witness: a one-row table whose `reddit_sentiment` column holds
5.0: the reporter flags the range violation and returns the frame
unchanged. -/
theorem check_data_consistency_flags_range_witness :
    ((some (5:ℚ) ∈ [some (5:ℚ)]) ∧
    (∃ cr, ("reddit_sentiment", cr) ∈
        (check_data_consistency
          { index := [sampleDate 0],
            cols := [("reddit_sentiment", [some (5:ℚ)])] }).1.value_ranges ∧
      cr.within_range = false) ∧
    (check_data_consistency
        { index := [sampleDate 0],
          cols := [("reddit_sentiment", [some (5:ℚ)])] }).2 =
      { index := [sampleDate 0], cols := [("reddit_sentiment", [some (5:ℚ)])] }) :=
  ⟨by simp,
   (check_data_consistency_flags_range
      { index := [sampleDate 0], cols := [("reddit_sentiment", [some (5:ℚ)])] }
      "reddit_sentiment" [some (5:ℚ)] (by simp) (by decide) 5 (by simp)
      (Or.inr (by simp))).1,
   (check_data_consistency_flags_range
      { index := [sampleDate 0], cols := [("reddit_sentiment", [some (5:ℚ)])] }
      "reddit_sentiment" [some (5:ℚ)] (by simp) (by decide) 5 (by simp)
      (Or.inr (by simp))).2⟩

end MarketSentiment
